import Mathlib

/-!
Verification development for the SSG-AI live voice session overlay
(src/components/LiveVoiceOverlay.tsx).

The overlay's behaviour is shallowly embedded here, subsystem by subsystem,
translated directly from the TypeScript source:

* playback scheduling (nextStartTimeRef / sourcesRef, lines 70-90);
* transcript accumulation (lines 60-65 and 104-107);
* tool-call dispatch (lines 92-102) with the declared command set (118-135);
* microphone capture and mute (lines 44-52, with the mute state from line 15
  and the toggle at line 205, and the mount effect with empty deps, line 157);
* session lifecycle: handshake resolution, deferred close, unmount cleanup
  (lines 34-56 and 139-157);
* the transport error callback (line 109).

Device clock timestamps and buffer durations are modelled as rationals.
-/

/-! ## Playback scheduler

State of the playback side: `nextStartTime` embeds `nextStartTimeRef.current`
(initialised to 0 at line 19) and `sources` embeds the set `sourcesRef.current`
of active buffer source nodes (represented by ids). -/

structure SchedState where
  nextStartTime : ℚ
  sources : List Nat
  deriving Repr, DecidableEq

/-- The audio-chunk branch of `onmessage` (lines 70-78):
`nextStartTimeRef.current = Math.max(nextStartTimeRef.current, ctx.currentTime)`,
`source.start(nextStartTimeRef.current)`,
`nextStartTimeRef.current += buffer.duration`,
`sourcesRef.current.add(source)`.
Returns the start timestamp passed to `source.start` together with the new
state. `now` is the output context's `currentTime` at this event and `dur`
the decoded buffer's duration. -/
def scheduleAudio (st : SchedState) (now dur : ℚ) (srcId : Nat) : ℚ × SchedState :=
  let startAt := max st.nextStartTime now
  (startAt, { nextStartTime := startAt + dur, sources := srcId :: st.sources })

/-- The interrupted branch of `onmessage` (lines 85-90):
`sourcesRef.current.forEach(s => s.stop()); sourcesRef.current.clear();
nextStartTimeRef.current = 0;`. Returns the list of sources that received
`stop()` together with the new state. -/
def interruptPlayback (st : SchedState) : List Nat × SchedState :=
  (st.sources, { nextStartTime := 0, sources := [] })

/-- Run a sequence of audio-chunk events (each a pair of the device clock
reading at arrival and the decoded buffer duration) with no intervening
interruption, collecting for each buffer its scheduled start time and its
duration. -/
def runSchedule (st : SchedState) : List (ℚ × ℚ) → List (ℚ × ℚ)
  | [] => []
  | (now, dur) :: rest =>
    let r := scheduleAudio st now dur 0
    (r.1, dur) :: runSchedule r.2 rest

/-- Every buffer scheduled during a run starts no earlier than the
`nextStartTime` held at the beginning of the run, provided durations are
nonnegative. -/
lemma runSchedule_start_ge (st : SchedState) (l : List (ℚ × ℚ))
    (h : ∀ p ∈ l, 0 ≤ p.2) :
    ∀ q ∈ runSchedule st l, st.nextStartTime ≤ q.1 := by
  induction l generalizing st with
  | nil => simp [runSchedule]
  | cons p rest ih =>
    obtain ⟨now, dur⟩ := p
    intro q hq
    simp only [runSchedule, scheduleAudio, List.mem_cons] at hq
    rcases hq with hq | hq
    · rw [hq]
      exact le_max_left _ _
    · have hdur : 0 ≤ dur := h (now, dur) (List.mem_cons_self _ _)
      have hrest : ∀ p ∈ rest, 0 ≤ p.2 := fun p hp => h p (List.mem_cons_of_mem _ hp)
      have := ih { nextStartTime := max st.nextStartTime now + dur,
                   sources := 0 :: st.sources } hrest q hq
      calc st.nextStartTime ≤ max st.nextStartTime now := le_max_left _ _
        _ ≤ max st.nextStartTime now + dur := le_add_of_nonneg_right hdur
        _ ≤ q.1 := this

/-- C6. Monotonic playback: for any run of audio-chunk events with no
intervening interruption and nonnegative buffer durations, every scheduled
buffer starts no earlier than the end (start plus duration) of every buffer
scheduled before it; in particular the start of buffer n+1 is at least the
end of buffer n, and no two scheduled buffers overlap. -/
theorem monotonic_playback (st : SchedState) (l : List (ℚ × ℚ))
    (h : ∀ p ∈ l, 0 ≤ p.2) :
    List.Pairwise (fun a b => a.1 + a.2 ≤ b.1) (runSchedule st l) := by
  induction l generalizing st with
  | nil => simp [runSchedule]
  | cons p rest ih =>
    obtain ⟨now, dur⟩ := p
    have hrest : ∀ p ∈ rest, 0 ≤ p.2 := fun p hp => h p (List.mem_cons_of_mem _ hp)
    simp only [runSchedule, scheduleAudio, List.pairwise_cons]
    refine ⟨fun q hq => ?_, ih _ hrest⟩
    exact runSchedule_start_ge _ rest hrest q hq

theorem monotonic_playback_witness :
    (∀ p ∈ [((0 : ℚ), (2 : ℚ)), (1, 3), (10, 1)], 0 ≤ p.2) ∧
    List.Pairwise (fun a b => a.1 + a.2 ≤ b.1)
      (runSchedule ⟨0, []⟩ [((0 : ℚ), (2 : ℚ)), (1, 3), (10, 1)]) :=
  ⟨by decide, monotonic_playback ⟨0, []⟩ _ (by decide)⟩

/-- C7. Gapless when continuous: if a second buffer is scheduled while the
first is still playing (the device clock has not yet reached the first
buffer's end, i.e. the current `nextStartTime`), its start equals exactly the
first buffer's end: start plus duration. -/
theorem gapless_when_continuous (st : SchedState) (now dur now' dur' : ℚ)
    (i j : Nat)
    (h : now' < (scheduleAudio st now dur i).2.nextStartTime) :
    (scheduleAudio (scheduleAudio st now dur i).2 now' dur' j).1 =
      (scheduleAudio st now dur i).1 + dur := by
  simp only [scheduleAudio] at h ⊢
  exact max_eq_left (le_of_lt h)

theorem gapless_when_continuous_witness :
    ((1 : ℚ) < (scheduleAudio ⟨0, []⟩ 0 2 0).2.nextStartTime) ∧
    (scheduleAudio (scheduleAudio ⟨0, []⟩ 0 2 0).2 1 5 1).1 =
      (scheduleAudio ⟨0, []⟩ 0 2 0).1 + 2 :=
  ⟨by simp [scheduleAudio], gapless_when_continuous ⟨0, []⟩ 0 2 1 5 0 1 (by simp [scheduleAudio])⟩

/-- C3 counterexample. The interrupted branch sets `nextStartTimeRef.current`
to 0 (line 88), not to the output device's current time: in a scenario where
the device clock reads 5 and two sources are active, the claim as stated
demands a NextStartClock of 5 after interruption, but the code leaves 0. -/
theorem interrupt_reset_counterexample :
    (interruptPlayback ⟨7, [1, 2]⟩).2.nextStartTime = 0 ∧
    (interruptPlayback ⟨7, [1, 2]⟩).2.nextStartTime ≠ 5 := by
  constructor
  · rfl
  · decide

/-- C3 amended. Handling an inbound interrupted event stops every source in
ActiveSources, clears ActiveSources to empty, and resets NextStartClock to 0
(not to the device's current time); because scheduling takes the maximum of
NextStartClock and the device clock, the next buffer scheduled after the
interruption nevertheless starts at the device's current time (the device
clock being nonnegative). -/
theorem interrupt_reset_amended (st : SchedState) (now dur : ℚ) (i : Nat)
    (h : 0 ≤ now) :
    (interruptPlayback st).1 = st.sources ∧
    (interruptPlayback st).2.sources = [] ∧
    (interruptPlayback st).2.nextStartTime = 0 ∧
    (scheduleAudio (interruptPlayback st).2 now dur i).1 = now := by
  refine ⟨rfl, rfl, rfl, ?_⟩
  simp only [interruptPlayback, scheduleAudio]
  exact max_eq_right h

theorem interrupt_reset_amended_witness :
    ((0 : ℚ) ≤ 5) ∧
    ((interruptPlayback ⟨7, [1, 2]⟩).1 = [1, 2] ∧
     (interruptPlayback ⟨7, [1, 2]⟩).2.sources = [] ∧
     (interruptPlayback ⟨7, [1, 2]⟩).2.nextStartTime = 0 ∧
     (scheduleAudio (interruptPlayback ⟨7, [1, 2]⟩).2 5 3 9).1 = 5) :=
  ⟨by decide, interrupt_reset_amended ⟨7, [1, 2]⟩ 5 3 9 (by decide)⟩

/-! ## Transcript accumulator

The user and model transcripts are the `userTranscript` and `aiTranscript`
state variables (lines 13-14, both initialised to the empty string). -/

structure TState where
  user : String
  ai : String
  deriving Repr, DecidableEq

/-- Inbound transcript-relevant events, in the order `onmessage` tests them:
an input-transcription fragment, an output-transcription fragment, or a
turn-complete flag. -/
inductive TEvent where
  | input (t : String)
  | output (t : String)
  | turnComplete
  deriving Repr, DecidableEq

/-- The transcript handling of `onmessage`:
lines 60-62 set `userTranscript` to `prev + ' ' + text` on an input
transcription, lines 63-65 set `aiTranscript` to `prev + ' ' + text` on an
output transcription, and lines 104-107 set both to the empty string on
`turnComplete`. -/
def stepTranscript (st : TState) : TEvent → TState
  | .input t => { st with user := st.user ++ " " ++ t }
  | .output t => { st with ai := st.ai ++ " " ++ t }
  | .turnComplete => { user := "", ai := "" }

/-- Process a list of inbound transcript events in delivery order. -/
def runTranscript (st : TState) (l : List TEvent) : TState :=
  l.foldl stepTranscript st

/-- C4 counterexample. Appending the fragments "hello" then "world" to the
empty model transcript yields " hello world" with a leading space, because
line 64 prepends a space before every fragment including the first; the claim
demands exactly "hello world". -/
theorem transcript_join_counterexample :
    (runTranscript ⟨"", ""⟩ [.output "hello", .output "world"]).ai = " hello world" ∧
    (runTranscript ⟨"", ""⟩ [.output "hello", .output "world"]).ai ≠ "hello world" := by
  constructor
  · rfl
  · decide

/-- C4 amended. Every fragment is appended as a space followed by the
fragment, so "hello" then "world" on the empty model transcript yields
" hello world" (leading space included); a subsequent turn-complete event
resets both transcripts to empty, and appending a new fragment "hi"
afterwards yields exactly " hi" with no leftover concatenation. -/
theorem transcript_join_amended :
    (runTranscript ⟨"", ""⟩ [.output "hello", .output "world"]).ai = " hello world" ∧
    runTranscript ⟨"", ""⟩ [.output "hello", .output "world", .turnComplete] =
      ⟨"", ""⟩ ∧
    (runTranscript ⟨"", ""⟩
      [.output "hello", .output "world", .turnComplete, .output "hi"]).ai = " hi" :=
  ⟨rfl, rfl, rfl⟩

/-! ## Microphone capture and mute

`isMuted` is React state (line 15, initialised to false) toggled by the mute
button (line 205). The capture callback `scriptProcessor.onaudioprocess`
(lines 44-52) is installed once, inside the mount effect whose dependency
array is empty (line 157); the `isMuted` it reads is therefore the binding of
the render in which that effect ran, i.e. the initial value — later renders
produced by `setIsMuted` never reinstall the callback. -/

/-- Initial value of the `isMuted` state: `useState(false)` at line 15. -/
def initialIsMuted : Bool := false

structure MuteState where
  /-- The current `isMuted` React state, as rendered by the UI. -/
  uiMuted : Bool
  /-- Number of capture callback invocations (captured frames). -/
  captured : Nat
  /-- Number of frames forwarded to the uplink via `sendRealtimeInput`. -/
  sent : Nat
  deriving Repr, DecidableEq

/-- The capture callback (lines 44-52): the invocation itself is a captured
frame; `if (isMuted) return;` consults the closure's `isMuted` binding, and
otherwise the frame is encoded and forwarded to the uplink. -/
def onAudioProcess (closureMuted : Bool) (st : MuteState) : MuteState :=
  if closureMuted then { st with captured := st.captured + 1 }
  else { st with captured := st.captured + 1, sent := st.sent + 1 }

/-- Events of the capture side: a capture callback firing, or the user
pressing the mute toggle (line 205: `setIsMuted(!isMuted)`). -/
inductive MEvent where
  | frame
  | toggleMute
  deriving Repr, DecidableEq

/-- One step of the capture side. The installed callback always reads the
mute flag captured at mount time (`initialIsMuted`), because the effect that
installed it has an empty dependency array and never re-runs. -/
def stepMute (st : MuteState) : MEvent → MuteState
  | .frame => onAudioProcess initialIsMuted st
  | .toggleMute => { st with uiMuted := !st.uiMuted }

/-- Run a sequence of capture-side events from a state. -/
def runMute (st : MuteState) (l : List MEvent) : MuteState :=
  l.foldl stepMute st

/-- C2. Evaluation at the failing input: the user toggles mute on and a frame
is then captured. The UI shows muted, the frame is captured, and the frame is
nevertheless forwarded to the uplink (sent = 1), because the capture callback
reads the stale mount-time value of `isMuted`; the claim requires zero frames
to reach the uplink while mute is enabled. -/
theorem mute_stale_closure_bug :
    runMute ⟨initialIsMuted, 0, 0⟩ [.toggleMute, .frame] =
      ⟨true, 1, 1⟩ := by
  rfl

/-! ## Tool-call dispatch

An inbound `message.toolCall` carries a batch `functionCalls`; the handler
loop is lines 92-102 of the source. The host command handler is the
`onCommand` prop (line 8): it is invoked synchronously inside the loop, and
only after it returns is the acknowledgment registered on `sessionPromise`.
A handler that throws aborts the surrounding loop (the exception propagates
out of `onmessage`), so later calls of the batch are neither dispatched nor
acknowledged. The handler is modelled as returning `Except`: an `error`
models a throw, an `ok` value models whatever the handler returns (which the
code ignores). -/

structure FunctionCall where
  id : String
  name : String
  args : String
  deriving Repr, DecidableEq

/-- The payload of `sendToolResponse` (lines 97-99):
`functionResponses: { id: fc.id, name: fc.name, response: { result: "ok" } }`. -/
structure ToolResponse where
  id : String
  name : String
  result : String
  deriving Repr, DecidableEq

/-- The response built for a function call fc: id and name copied from the
request, response payload the fixed string "ok". -/
def mkToolResponse (fc : FunctionCall) : ToolResponse :=
  { id := fc.id, name := fc.name, result := "ok" }

/-- The tool-call loop (lines 92-102): for each function call in batch order,
invoke `onCommand(fc.name, fc.args)`; if it returns, register the
acknowledgment for fc and continue; if it throws, the exception aborts the
loop, so fc is invoked but not acknowledged and the remaining calls are
untouched. Returns the list of (name, args) invocations made and the list of
responses sent (in order). -/
def processToolCalls (handler : String → String → Except String String) :
    List FunctionCall → List (String × String) × List ToolResponse
  | [] => ([], [])
  | fc :: rest =>
    match handler fc.name fc.args with
    | .error _ => ([(fc.name, fc.args)], [])
    | .ok _ =>
      let r := processToolCalls handler rest
      ((fc.name, fc.args) :: r.1, mkToolResponse fc :: r.2)

/-- The command names declared to the remote endpoint in the session config
(lines 118-135). -/
def declaredCommands : List String := ["createNewChat", "toggleSearch"]

/-- A host handler that throws exactly on the command named "b". -/
def throwingHandlerB (n : String) (_a : String) : Except String String :=
  if n = "b" then .error "boom" else .ok "done"

/-- The three-request batch with ids a, b, c from the claim. -/
def batchABC : List FunctionCall :=
  [⟨"a", "a", "argsA"⟩, ⟨"b", "b", "argsB"⟩, ⟨"c", "c", "argsC"⟩]

/-- On a batch where the handler completes normally on every call, the loop
invokes the handler on every call in order and acknowledges every call. -/
lemma processToolCalls_eq_of_ok (handler : String → String → Except String String)
    (batch : List FunctionCall)
    (h : ∀ fc ∈ batch, (handler fc.name fc.args).isOk = true) :
    processToolCalls handler batch =
      (batch.map (fun fc => (fc.name, fc.args)), batch.map mkToolResponse) := by
  induction batch with
  | nil => rfl
  | cons fc rest ih =>
    have hfc := h fc (List.mem_cons_self _ _)
    have hrest : ∀ fc ∈ rest, (handler fc.name fc.args).isOk = true :=
      fun fc hf => h fc (List.mem_cons_of_mem _ hf)
    cases hh : handler fc.name fc.args with
    | error e => rw [hh] at hfc; simp [Except.isOk, Except.toBool] at hfc
    | ok v => simp [processToolCalls, hh, ih hrest]

/-- Every response the loop ever sends carries the fixed result "ok",
whatever the handler does. -/
lemma processToolCalls_result_ok (handler : String → String → Except String String)
    (batch : List FunctionCall) :
    ∀ r ∈ (processToolCalls handler batch).2, r.result = "ok" := by
  induction batch with
  | nil => intro r hr; simp [processToolCalls] at hr
  | cons fc rest ih =>
    intro r hr
    cases hh : handler fc.name fc.args with
    | error e => simp [processToolCalls, hh] at hr
    | ok v =>
      simp only [processToolCalls, hh, List.mem_cons] at hr
      rcases hr with hr | hr
      · rw [hr]; rfl
      · exact ih r hr

/-- C1 counterexample. With a batch of 3 requests with ids a, b, c and a host
handler that throws on b, the code sends exactly 1 response (the one for a),
not the 3 the claim demands: `onCommand` is called before the acknowledgment
for the same request is registered, and its exception aborts the loop. -/
theorem toolBatch_ack_counterexample :
    (processToolCalls throwingHandlerB batchABC).2 = [⟨"a", "a", "ok"⟩] ∧
    (processToolCalls throwingHandlerB batchABC).2.length = 1 ∧
    (processToolCalls throwingHandlerB batchABC).2.length ≠ 3 := by
  refine ⟨?_, ?_, ?_⟩ <;> decide

/-- C1 amended. If the host handler completes normally on every request of an
inbound tool-call batch, exactly one response is sent per request, each with
id (and name) matching its request; when the handler throws on a request, the
loop aborts and responses are sent only for the requests dispatched and
acknowledged before it. -/
theorem toolBatch_ack_amended (handler : String → String → Except String String)
    (batch : List FunctionCall)
    (h : ∀ fc ∈ batch, (handler fc.name fc.args).isOk = true) :
    (processToolCalls handler batch).2 = batch.map mkToolResponse ∧
    (processToolCalls handler batch).2.length = batch.length ∧
    (processToolCalls handler batch).2.map (fun r => r.id) =
      batch.map (fun fc => fc.id) := by
  have hmain : (processToolCalls handler batch).2 = batch.map mkToolResponse := by
    rw [processToolCalls_eq_of_ok handler batch h]
  refine ⟨hmain, by rw [hmain]; simp, by rw [hmain]; simp [mkToolResponse]⟩

/-- A host handler that completes normally on every command. -/
def okHandler (_n : String) (_a : String) : Except String String := .ok "done"

theorem toolBatch_ack_amended_witness :
    (∀ fc ∈ batchABC, (okHandler fc.name fc.args).isOk = true) ∧
    ((processToolCalls okHandler batchABC).2 = batchABC.map mkToolResponse ∧
     (processToolCalls okHandler batchABC).2.length = batchABC.length ∧
     (processToolCalls okHandler batchABC).2.map (fun r => r.id) =
       batchABC.map (fun fc => fc.id)) :=
  ⟨by decide, toolBatch_ack_amended okHandler batchABC (by decide)⟩

/-- C10. On a batch on which the host handler completes normally, the
dispatcher invokes the handler with every call's name and arguments, in batch
order — including calls whose name is outside the declared command set, which
are not rejected at the dispatch boundary — and every acknowledgment sent
back carries the fixed payload result "ok", never the handler's return
value. -/
theorem dispatch_invokes_and_acks_ok
    (handler : String → String → Except String String)
    (batch : List FunctionCall)
    (h : ∀ fc ∈ batch, (handler fc.name fc.args).isOk = true) :
    (processToolCalls handler batch).1 =
      batch.map (fun fc => (fc.name, fc.args)) ∧
    (∀ fc ∈ batch, fc.name ∉ declaredCommands →
      (fc.name, fc.args) ∈ (processToolCalls handler batch).1) ∧
    (∀ r ∈ (processToolCalls handler batch).2, r.result = "ok") := by
  have hmain : (processToolCalls handler batch).1 =
      batch.map (fun fc => (fc.name, fc.args)) := by
    rw [processToolCalls_eq_of_ok handler batch h]
  refine ⟨hmain, fun fc hfc _ => ?_, processToolCalls_result_ok handler batch⟩
  rw [hmain]
  exact List.mem_map_of_mem _ hfc

/-- A batch containing a call whose name is outside the declared command
set. -/
def batchWithUnknown : List FunctionCall :=
  [⟨"id1", "createNewChat", "argsA"⟩, ⟨"id2", "danceWildly", "argsB"⟩]

theorem dispatch_invokes_and_acks_ok_witness :
    (∀ fc ∈ batchWithUnknown, (okHandler fc.name fc.args).isOk = true) ∧
    ((processToolCalls okHandler batchWithUnknown).1 =
       batchWithUnknown.map (fun fc => (fc.name, fc.args)) ∧
     (∀ fc ∈ batchWithUnknown, fc.name ∉ declaredCommands →
       (fc.name, fc.args) ∈ (processToolCalls okHandler batchWithUnknown).1) ∧
     (∀ r ∈ (processToolCalls okHandler batchWithUnknown).2, r.result = "ok")) :=
  ⟨by decide, dispatch_invokes_and_acks_ok okHandler batchWithUnknown (by decide)⟩

/-! ## Session lifecycle: handshake resolution, deferred close, cleanup

The mount effect (lines 22-157) sets `isActive = true`, acquires the
microphone stream (line 32, `getUserMedia`) and the two audio contexts
(lines 29-30), starts `ai.live.connect` producing `sessionPromise`
(line 34), and registers on it the deferred-close continuation
`sessionPromise.then(session => { if (!isActive) session.close(); })`
(lines 140-142). When the handshake resolves, `onopen` fires: it returns
early if `!isActive`, otherwise it installs the capture callback that
forwards frames via `sessionPromise.then(session.sendRealtimeInput)`
(lines 37-56). The cleanup function (lines 151-156) sets `isActive = false`
and closes the two audio contexts; it does not stop the microphone stream's
tracks, and it does not itself close the session (the comment at line 153
defers that to the promise chain, which has already run if the handshake
resolved while the overlay was still active). -/

structure LifeState where
  /-- The `isActive` flag of the mount effect (line 23). -/
  isActive : Bool
  /-- Whether `sessionPromise` has resolved (the handshake completed). -/
  resolved : Bool
  /-- Whether `onopen` installed the capture callback (lines 41-55). -/
  handlerInstalled : Bool
  /-- Whether `session.close()` was called on the transport. -/
  sessionClosed : Bool
  /-- Number of captured frames forwarded over the uplink. -/
  framesSent : Nat
  /-- Whether the microphone MediaStream (line 32) is still acquired: nothing
  in the source ever calls stop() on its tracks. -/
  micAcquired : Bool
  /-- Whether the 16 kHz capture AudioContext (line 29) is open. -/
  inputCtxOpen : Bool
  /-- Whether the 24 kHz playback AudioContext (line 30) is open. -/
  outputCtxOpen : Bool
  deriving Repr, DecidableEq

/-- Lifecycle events: the handshake resolving (running the registered
continuations: `onopen` and the deferred-close chain), the overlay being
closed/unmounted (running the cleanup function), and a capture callback
firing. -/
inductive LEvent where
  | resolve
  | close
  | frame
  deriving Repr, DecidableEq

/-- One lifecycle step, from the source.
Resolve (a promise resolves once): `onopen` (lines 37-39) returns early when
`!isActive`, else installs the capture callback; the deferred-close chain
(lines 140-142) closes the session exactly when `!isActive`.
Close (cleanup, lines 151-156): clears `isActive` and closes both audio
contexts — the microphone stream and the transport session are untouched.
Frame: the capture callback runs only if installed and its context is still
open, and then forwards the frame via the resolved `sessionPromise`. -/
def stepLife (st : LifeState) : LEvent → LifeState
  | .resolve =>
    if st.resolved then st
    else if st.isActive then
      { st with resolved := true, handlerInstalled := true }
    else
      { st with resolved := true, sessionClosed := true }
  | .close =>
    { st with isActive := false, inputCtxOpen := false, outputCtxOpen := false }
  | .frame =>
    if st.handlerInstalled && st.inputCtxOpen then
      { st with framesSent := st.framesSent + 1 }
    else st

/-- Run a sequence of lifecycle events in order. -/
def runLife (st : LifeState) (l : List LEvent) : LifeState :=
  l.foldl stepLife st

/-- The state right after the mount effect has started the session: overlay
active, handshake pending, microphone and both contexts acquired, nothing
sent. -/
def initLife : LifeState :=
  { isActive := true, resolved := false, handlerInstalled := false,
    sessionClosed := false, framesSent := 0, micAcquired := true,
    inputCtxOpen := true, outputCtxOpen := true }

lemma runLife_append (st : LifeState) (a b : List LEvent) :
    runLife st (a ++ b) = runLife (runLife st a) b :=
  List.foldl_append _ _ _ _

/-- Before the handshake resolves, no capture callback exists, so nothing is
sent, nothing is closed on the transport, and the promise stays pending. -/
lemma runLife_no_resolve (l : List LEvent) (st : LifeState)
    (hres : LEvent.resolve ∉ l)
    (hh : st.handlerInstalled = false) :
    (runLife st l).resolved = st.resolved ∧
    (runLife st l).handlerInstalled = false ∧
    (runLife st l).framesSent = st.framesSent ∧
    (runLife st l).sessionClosed = st.sessionClosed := by
  induction l generalizing st with
  | nil => exact ⟨rfl, hh, rfl, rfl⟩
  | cons e rest ih =>
    have hres' : LEvent.resolve ∉ rest := fun hm => hres (List.mem_cons_of_mem _ hm)
    cases e with
    | resolve => exact absurd (List.mem_cons_self _ _) hres
    | close =>
      have := ih { st with isActive := false, inputCtxOpen := false,
                           outputCtxOpen := false } hres' hh
      simpa [runLife, stepLife] using this
    | frame =>
      have hstep : stepLife st .frame = st := by
        simp [stepLife, hh]
      have := ih st hres' hh
      simpa [runLife, stepLife, hh] using this

/-- Once the overlay is inactive with no capture callback installed, no event
can install one or send a frame, the overlay stays inactive, a closed
transport stays closed, and a pending handshake closes the transport the
moment it resolves. -/
lemma runLife_inactive (l : List LEvent) (st : LifeState)
    (ha : st.isActive = false)
    (hh : st.handlerInstalled = false) :
    (runLife st l).isActive = false ∧
    (runLife st l).handlerInstalled = false ∧
    (runLife st l).framesSent = st.framesSent ∧
    ((st.sessionClosed = true ∨ (st.resolved = false ∧ LEvent.resolve ∈ l)) →
      (runLife st l).sessionClosed = true) := by
  induction l generalizing st with
  | nil =>
    refine ⟨ha, hh, rfl, fun hc => ?_⟩
    rcases hc with hc | ⟨_, hm⟩
    · exact hc
    · simp at hm
  | cons e rest ih =>
    cases e with
    | resolve =>
      by_cases hr : st.resolved = true
      · have hstep : stepLife st .resolve = st := by simp [stepLife, hr]
        have := ih st ha hh
        refine ⟨?_, ?_, ?_, fun hc => ?_⟩
        · simpa [runLife, hstep] using this.1
        · simpa [runLife, hstep] using this.2.1
        · simpa [runLife, hstep] using this.2.2.1
        · rcases hc with hc | ⟨hnr, _⟩
          · have := this.2.2.2 (Or.inl hc)
            simpa [runLife, hstep] using this
          · rw [hr] at hnr; simp at hnr
      · have hr' : st.resolved = false := by
          cases hv : st.resolved with
          | false => rfl
          | true => exact absurd hv hr
        have hstep : stepLife st .resolve =
            { st with resolved := true, sessionClosed := true } := by
          simp [stepLife, hr', ha]
        have := ih { st with resolved := true, sessionClosed := true } ha hh
        refine ⟨?_, ?_, ?_, fun _ => ?_⟩
        · simpa [runLife, hstep] using this.1
        · simpa [runLife, hstep] using this.2.1
        · simpa [runLife, hstep] using this.2.2.1
        · have := this.2.2.2 (Or.inl rfl)
          simpa [runLife, hstep] using this
    | close =>
      have hstep : stepLife st .close =
          { st with isActive := false, inputCtxOpen := false,
                    outputCtxOpen := false } := rfl
      have := ih { st with isActive := false, inputCtxOpen := false,
                           outputCtxOpen := false } rfl hh
      refine ⟨?_, ?_, ?_, fun hc => ?_⟩
      · simpa [runLife, hstep] using this.1
      · simpa [runLife, hstep] using this.2.1
      · simpa [runLife, hstep] using this.2.2.1
      · have hc' : ({ st with isActive := false, inputCtxOpen := false, outputCtxOpen := false } : LifeState).sessionClosed = true ∨ (({ st with isActive := false, inputCtxOpen := false, outputCtxOpen := false } : LifeState).resolved = false ∧ LEvent.resolve ∈ rest) := by
          rcases hc with hc | ⟨hnr, hm⟩
          · exact Or.inl hc
          · rcases List.mem_cons.mp hm with hm | hm
            · simp at hm
            · exact Or.inr ⟨hnr, hm⟩
        have := this.2.2.2 hc'
        simpa [runLife, hstep] using this
    | frame =>
      have hstep : stepLife st .frame = st := by simp [stepLife, hh]
      have := ih st ha hh
      refine ⟨?_, ?_, ?_, fun hc => ?_⟩
      · simpa [runLife, hstep] using this.1
      · simpa [runLife, hstep] using this.2.1
      · simpa [runLife, hstep] using this.2.2.1
      · have hc' : st.sessionClosed = true ∨
            (st.resolved = false ∧ LEvent.resolve ∈ rest) := by
          rcases hc with hc | ⟨hnr, hm⟩
          · exact Or.inl hc
          · rcases List.mem_cons.mp hm with hm | hm
            · simp at hm
            · exact Or.inr ⟨hnr, hm⟩
        have := this.2.2.2 hc'
        simpa [runLife, hstep] using this

lemma runLife_cons (st : LifeState) (e : LEvent) (l : List LEvent) :
    runLife st (e :: l) = runLife (stepLife st e) l := rfl

/-- C8. Deferred close: if the overlay is closed before the transport
handshake resolves (no resolve event precedes the close), then the transport
is closed at the moment of resolution (already at the end of the prefix that
ends with the resolve event), it remains closed thereafter, and zero audio
frames are ever sent on the uplink over the whole run. -/
theorem deferred_close_zero_frames (l1 l2 l3 : List LEvent)
    (h1 : LEvent.resolve ∉ l1) :
    (runLife initLife (l1 ++ (LEvent.close :: (l2 ++ [LEvent.resolve])))).sessionClosed = true ∧
    (runLife initLife (l1 ++ (LEvent.close :: (l2 ++ (LEvent.resolve :: l3))))).framesSent = 0 ∧
    (runLife initLife (l1 ++ (LEvent.close :: (l2 ++ (LEvent.resolve :: l3))))).sessionClosed = true := by
  obtain ⟨hAres, hAh, hAf, hAc⟩ := runLife_no_resolve l1 initLife h1 rfl
  have hBa : (stepLife (runLife initLife l1) .close).isActive = false := by
    simp [stepLife]
  have hBh : (stepLife (runLife initLife l1) .close).handlerInstalled = false := by
    simp [stepLife, hAh]
  have hBres : (stepLife (runLife initLife l1) .close).resolved = false := by
    simp [stepLife]
    rw [hAres]
    rfl
  have hBf : (stepLife (runLife initLife l1) .close).framesSent = 0 := by
    simp [stepLife]
    rw [hAf]
    rfl
  have hB1 := runLife_inactive (l2 ++ [LEvent.resolve])
    (stepLife (runLife initLife l1) .close) hBa hBh
  have hB2 := runLife_inactive (l2 ++ (LEvent.resolve :: l3))
    (stepLife (runLife initLife l1) .close) hBa hBh
  refine ⟨?_, ?_, ?_⟩
  · rw [runLife_append, runLife_cons]
    exact hB1.2.2.2 (Or.inr ⟨hBres, by simp⟩)
  · rw [runLife_append, runLife_cons]
    rw [hB2.2.2.1, hBf]
  · rw [runLife_append, runLife_cons]
    exact hB2.2.2.2 (Or.inr ⟨hBres, by simp⟩)

theorem deferred_close_zero_frames_witness :
    (LEvent.resolve ∉ ([] : List LEvent)) ∧
    ((runLife initLife (([] : List LEvent) ++ (LEvent.close :: (([] : List LEvent) ++ [LEvent.resolve])))).sessionClosed = true ∧
     (runLife initLife (([] : List LEvent) ++ (LEvent.close :: (([] : List LEvent) ++ (LEvent.resolve :: ([] : List LEvent)))))).framesSent = 0 ∧
     (runLife initLife (([] : List LEvent) ++ (LEvent.close :: (([] : List LEvent) ++ (LEvent.resolve :: ([] : List LEvent)))))).sessionClosed = true) :=
  ⟨by decide, deferred_close_zero_frames [] [] [] (by decide)⟩

/-- C9. Evaluation at the failing input: the handshake resolves while the
overlay is active, and the overlay is then closed/unmounted. The cleanup
closes the two audio contexts, but the microphone MediaStream remains
acquired (no code path ever stops its tracks) and the transport session is
never closed (the deferred-close continuation already ran at resolution,
when `isActive` was still true, and the cleanup itself does not close the
session despite its comment claiming the promise chain handles it); the
claim requires all three resources to be released. -/
theorem close_leaves_resources_acquired :
    (runLife initLife [LEvent.resolve, LEvent.close]).micAcquired = true ∧
    (runLife initLife [LEvent.resolve, LEvent.close]).sessionClosed = false ∧
    (runLife initLife [LEvent.resolve, LEvent.close]).inputCtxOpen = false ∧
    (runLife initLife [LEvent.resolve, LEvent.close]).outputCtxOpen = false := by
  refine ⟨?_, ?_, ?_, ?_⟩ <;> rfl

/-! ## Transport error handling

The transport error callback (line 109) is `onerror: () => setStatus('error')`. -/

/-- The session status rendered by the overlay (line 12). -/
inductive SStatus where
  | connecting
  | listening
  | speaking
  | error
  deriving Repr, DecidableEq

/-- Session state relevant to error handling: the rendered status and which
resources are currently held. -/
structure ErrState where
  status : SStatus
  micAcquired : Bool
  inputCtxOpen : Bool
  outputCtxOpen : Bool
  transportOpen : Bool
  deriving Repr, DecidableEq

/-- The `onerror` callback (line 109): it sets the status to error and does
nothing else. -/
def handleTransportError (st : ErrState) : ErrState :=
  { st with status := .error }

/-- C5 counterexample. A transport failure during a live session (status
listening, microphone, both contexts and the transport all held) leaves
every resource still acquired after the error callback runs: the capture and
playback devices are not released as part of handling the error, contrary to
the claim. -/
theorem onerror_teardown_counterexample :
    (handleTransportError ⟨.listening, true, true, true, true⟩).status = .error ∧
    (handleTransportError ⟨.listening, true, true, true, true⟩).micAcquired = true ∧
    (handleTransportError ⟨.listening, true, true, true, true⟩).inputCtxOpen = true ∧
    (handleTransportError ⟨.listening, true, true, true, true⟩).outputCtxOpen = true ∧
    (handleTransportError ⟨.listening, true, true, true, true⟩).transportOpen = true := by
  refine ⟨?_, ?_, ?_, ?_, ?_⟩ <;> rfl

/-- C5 amended. On a transport failure the session transitions to the Error
status, and nothing else happens: the error handler releases no resource —
the capture device, the playback device and the transport remain exactly as
they were, and teardown occurs only when the overlay is closed or
unmounted. -/
theorem onerror_status_only (st : ErrState) :
    (handleTransportError st).status = .error ∧
    (handleTransportError st).micAcquired = st.micAcquired ∧
    (handleTransportError st).inputCtxOpen = st.inputCtxOpen ∧
    (handleTransportError st).outputCtxOpen = st.outputCtxOpen ∧
    (handleTransportError st).transportOpen = st.transportOpen :=
  ⟨rfl, rfl, rfl, rfl, rfl⟩
